import Mathlib

/-!
Verification development for the pypop optimizer framework
(`src/pypop7/optimizers/es/r1es.py`, `src/pypop7/optimizers/ep/fep.py`,
`src/pypop7/optimizers/ds/ds.py`).

Numbers are embedded as rationals; the numpy functions `np.sqrt` and `np.exp`
are threaded as abstract function parameters (`np_sqrt`, `np_exp`), and the
seeded random generators are embedded as explicit streams of draws consumed in
program order, so that every run is a pure function of configuration and seed.
The abstract base classes `Optimizer`, `ES` and `CEP` are not part of the
source sample; the parts of them these algorithms call are modelled from the
specification (marked `Modelled from the spec:` below).
-/

namespace Pypop

/-- A seeded random stream: an infinite sequence of draws together with a
cursor.  Each primitive draw consumes one value of the stream. -/
structure Rng where
  stream : Nat → ℚ
  idx : Nat

/-- Consume one draw (models one call such as `standard_normal()` or
`standard_cauchy()`). -/
def Rng.next (g : Rng) : ℚ × Rng :=
  (g.stream g.idx, ⟨g.stream, g.idx + 1⟩)

/-- Consume `n` draws at once (models `standard_normal((n,))`). -/
def Rng.nextVec (g : Rng) (n : Nat) : List ℚ × Rng :=
  ((List.range n).map (fun i => g.stream (g.idx + i)), ⟨g.stream, g.idx + n⟩)

/-- Model of `rng.uniform(lower, upper)` on vectors: elementwise
`lower + (upper - lower) * u` with fresh draws `u`. -/
def Rng.uniform (g : Rng) (lo hi : List ℚ) : List ℚ × Rng :=
  let u := g.nextVec lo.length
  (List.zipWith (fun pr t => pr.1 + (pr.2 - pr.1) * t) (lo.zip hi) u.1, u.2)

/-- Model of `rng.choice(n, q)`: `q` fresh draws, each mapped into `[0, n)`. -/
def toIdx (x : ℚ) (n : Nat) : Nat := x.floor.toNat % n

/-- Draw `q` opponent indices (models `rng_optimization.choice(n, q)`). -/
def Rng.choice (g : Rng) (n q : Nat) : List Nat × Rng :=
  (List.range q).foldl
    (fun (acc : List Nat × Rng) _ =>
      let u := acc.2.next
      (acc.1 ++ [toIdx u.1 n], u.2)) ([], g)

/-- Elementwise vector addition (numpy `+` on arrays). -/
def vadd (a b : List ℚ) : List ℚ := List.zipWith (fun s t => s + t) a b

/-- Elementwise vector subtraction (numpy `-` on arrays). -/
def vsub (a b : List ℚ) : List ℚ := List.zipWith (fun s t => s - t) a b

/-- Scalar times vector (numpy scalar `*` array). -/
def smul (c : ℚ) (v : List ℚ) : List ℚ := v.map (fun t => c * t)

/-- Dot product (numpy `np.dot`). -/
def dot (a b : List ℚ) : ℚ := (List.zipWith (fun s t => s * t) a b).sum

/-- The all-zeros vector (numpy `np.zeros((n,))`). -/
def zeros (n : Nat) : List ℚ := List.replicate n (0 : ℚ)

/-- Stable insertion of index `i` into an index list sorted by the values of
`l`: `i` goes before the first index whose value is strictly larger. -/
def insertIdx (l : List ℚ) (i : Nat) : List Nat → List Nat
  | [] => [i]
  | j :: js => if l.getD i 0 < l.getD j 0 then i :: j :: js else j :: insertIdx l i js

/-- Model of `np.argsort`: the list of indices of `l` ordered by ascending
value (stable on ties). -/
def argsort (l : List ℚ) : List Nat :=
  (List.range l.length).foldl (fun acc i => insertIdx l i acc) []

/-- Boolean-mask selection (numpy `a[mask]`): the elements of `l` at the
positions where `mask` holds, in order. -/
def maskSelect (l : List ℚ) (mask : List Bool) : List ℚ :=
  (l.zip mask).filterMap (fun pm => if pm.2 then some pm.1 else none)

/-- Immutable problem plus core options of the optimizer core.  Modelled from
the spec: the `Optimizer` base class is not in the source sample; per the spec
it holds the fitness function, dimensionality, bounds, the evaluation budget
and the fitness-recording flag.  `np_sqrt` and `np_exp` model the numpy
functions used by the concrete algorithms. -/
structure CoreParams where
  fitness_function : List ℚ → ℚ
  ndim_problem : Nat
  lower_boundary : List ℚ
  upper_boundary : List ℚ
  initial_lower_boundary : List ℚ
  initial_upper_boundary : List ℚ
  max_function_evaluations : Option Nat
  saving_fitness : Bool
  np_sqrt : ℚ → ℚ
  np_exp : ℚ → ℚ

/-- Mutable state owned by the optimizer core.  Modelled from the spec:
evaluation counter, generation counter, best-so-far point and value (the value
starts at infinity, embedded as the top element of `WithTop`), and the two
independent random streams. -/
structure CoreState where
  n_function_evaluations : Nat
  best_so_far_y : WithTop ℚ
  best_so_far_x : List ℚ
  rng_initialization : Rng
  rng_optimization : Rng
  _n_generations : Nat

/-- Modelled from the spec: `Optimizer._check_terminations` is not in the
source sample; per the spec it is true iff the evaluation counter has reached
`max_function_evaluations` (the wall-clock runtime budget is outside this
embedding). -/
def _check_terminations (p : CoreParams) (c : CoreState) : Bool :=
  match p.max_function_evaluations with
  | some m => decide (m ≤ c.n_function_evaluations)
  | none => false

/-- Modelled from the spec: `Optimizer._evaluate_fitness` is not in the source
sample; per the spec it evaluates the fitness function, increments the
evaluation counter by exactly one, and updates the best-so-far value and point
atomically when the new value is strictly better. -/
def _evaluate_fitness (p : CoreParams) (c : CoreState) (x : List ℚ) : ℚ × CoreState :=
  let y := p.fitness_function x
  let c1 := { c with n_function_evaluations := c.n_function_evaluations + 1 }
  (y, if (y : WithTop ℚ) < c.best_so_far_y then
        { c1 with best_so_far_y := (y : WithTop ℚ), best_so_far_x := x }
      else c1)

/-- Fields of the `ES` base class used by `R1ES`.  Modelled from the spec:
`es.py` is not in the source sample; per the spec the ES layer resolves the
offspring and parent population sizes, the optional user-supplied initial
mean, the initial step-size (with a backup kept for restarts), the restart
thresholds, the fixed normalized recombination weights `_w` and their
effective mass `_mu_eff`, and the restart-enable flag. -/
structure ESBase extends CoreParams where
  n_individuals : Nat
  n_parents : Nat
  mean : Option (List ℚ)
  sigma : ℚ
  _sigma_bak : ℚ
  sigma_threshold : ℚ
  stagnation : Nat
  fitness_diff : ℚ
  _w : List ℚ
  _mu_eff : ℚ
  is_restart : Bool

/-- The option dictionary entries read by `R1ES.__init__` (`None` when the
caller did not supply the key, so the documented default applies). -/
structure R1ESOptions where
  c_cov : Option ℚ
  c : Option ℚ
  c_s : Option ℚ
  q_star : Option ℚ
  d_sigma : Option ℚ

/-- Constants computed by `R1ES.__init__` (r1es.py lines 102-113). -/
structure R1ESParams extends ESBase where
  c_cov : ℚ
  c : ℚ
  c_s : ℚ
  q_star : ℚ
  d_sigma0 : ℚ
  _x_1 : ℚ
  _x_2 : ℚ
  _p_1 : ℚ

/-- Mutable fields of the `R1ES` object (`sigma` and `d_sigma` are updated
during the run; `_p_2` and `_rr` are set by `initialize`; `n_restart` and the
best-so-far fitness history belong to the spec-modelled restart controller). -/
structure R1ESState where
  core : CoreState
  sigma : ℚ
  d_sigma : ℚ
  n_restart : Nat
  _list_fitness : List (WithTop ℚ)
  _p_2 : ℚ
  _rr : List ℚ

namespace R1ES

/-- Embedding of `R1ES.__init__` (r1es.py lines 102-113): option defaults and
the derived constants; in particular the sampling coefficients
`_x_1 = sqrt(1 - c_cov)` and `_x_2 = sqrt(c_cov)`. -/
def init (es : ESBase) (o : R1ESOptions) : R1ESParams :=
  let c_cov := o.c_cov.getD (1 / (3 * es.np_sqrt ((es.ndim_problem : ℚ)) + 5))
  let c := o.c.getD (2 / ((es.ndim_problem : ℚ) + 7))
  { toESBase := es
    c_cov := c_cov
    c := c
    c_s := o.c_s.getD (3 / 10)
    q_star := o.q_star.getD (3 / 10)
    d_sigma0 := o.d_sigma.getD 1
    _x_1 := es.np_sqrt (1 - c_cov)
    _x_2 := es.np_sqrt c_cov
    _p_1 := 1 - c }

/-- The core parameters of an `R1ES` configuration. -/
def cp (pr : R1ESParams) : CoreParams := pr.toESBase.toCoreParams

/-- Modelled from the spec: `ES._initialize_mean` is not in the source sample;
per the spec the mean is the user-supplied initial point on the first
initialization, and is otherwise (no point supplied, or any restart) drawn
uniformly within the initial bounds from the initialization stream.  This
mirrors `DS._initialize_x` (ds.py lines 96-101), the in-sample analogue. -/
def _initialize_mean (pr : R1ESParams) (c : CoreState) (ir : Bool) : List ℚ × CoreState :=
  if ir || pr.mean.isNone then
    let u := c.rng_initialization.uniform pr.initial_lower_boundary pr.initial_upper_boundary
    (u.1, { c with rng_initialization := u.2 })
  else (pr.mean.getD [], c)

/-- Embedding of `R1ES.initialize` (r1es.py lines 115-123): sets `_p_2` and
the rank template `_rr = arange(2*n_parents) + 1`, allocates the offspring
buffer, initializes the mean, zeroes the principal direction and the
cumulative rank rate, and evaluates the mean once, tiling that single fitness
value over the `n_individuals` slots of `y`.  Returns `((x, mean, p, s, y),
state)`. -/
def initialize0 (pr : R1ESParams) (st : R1ESState) (ir : Bool) :
    (List (List ℚ) × List ℚ × List ℚ × ℚ × List ℚ) × R1ESState :=
  let _p_2 := pr.np_sqrt (pr.c * (2 - pr.c) * pr._mu_eff)
  let _rr := (List.range (pr.n_parents * 2)).map (fun i => ((i : ℚ) + 1))
  let x := List.replicate pr.n_individuals (zeros pr.ndim_problem)
  let im := _initialize_mean pr st.core ir
  let p := zeros pr.ndim_problem
  let ev := _evaluate_fitness (cp pr) im.2 im.1
  let y := List.replicate pr.n_individuals ev.1
  ((x, im.1, p, (0 : ℚ), y), { st with core := ev.2, _p_2 := _p_2, _rr := _rr })

/-- The body of one offspring of `R1ES.iterate` (r1es.py lines 129-133):
draw the vector `z` and the scalar `r` from the optimization stream, form the
candidate `mean + sigma*(_x_1*z + _x_2*r*p)`, and evaluate it through the
core gate. -/
def iterateStep (pr : R1ESParams) (st : R1ESState) (mean p : List ℚ) :
    (List ℚ × ℚ) × R1ESState :=
  let zd := st.core.rng_optimization.nextVec pr.ndim_problem
  let rd := zd.2.next
  let xk := vadd mean (smul st.sigma (vadd (smul pr._x_1 zd.1) (smul (pr._x_2 * rd.1) p)))
  let c1 := { st.core with rng_optimization := rd.2 }
  let ev := _evaluate_fitness (cp pr) c1 xk
  ((xk, ev.1), { st with core := ev.2 })

/-- The sampling loop of `R1ES.iterate` (r1es.py lines 126-134), by recursion
on the remaining offspring count: before each offspring the termination check
is polled, and on termination the current `x` and `y` are returned as they
stand. -/
def iterateLoop (pr : R1ESParams) (st : R1ESState) (x : List (List ℚ))
    (mean p : List ℚ) (y : List ℚ) (k rem : Nat) :
    (List (List ℚ) × List ℚ) × R1ESState :=
  match rem with
  | 0 => ((x, y), st)
  | rem + 1 =>
    if _check_terminations (cp pr) st.core then ((x, y), st)
    else
      let stp := iterateStep pr st mean p
      iterateLoop pr stp.2 (x.set k stp.1.1) mean p (y.set k stp.1.2) (k + 1) rem

/-- Embedding of `R1ES.iterate` (r1es.py lines 125-134). -/
def iterate (pr : R1ESParams) (st : R1ESState) (x : List (List ℚ))
    (mean p : List ℚ) (y : List ℚ) : (List (List ℚ) × List ℚ) × R1ESState :=
  iterateLoop pr st x mean p y 0 pr.n_individuals

/-- The rank-based success statistic of `R1ES._update_distribution`
(r1es.py lines 146-148): stack the previous and the current parent fitness
values, argsort the stacked vector, take the rank template `_rr` at the
positions landing in the previous half minus `_rr` at the positions landing
in the current half, and average with the recombination weights. -/
def rank_q (pr : R1ESParams) (st : R1ESState) (ySorted y_bak : List ℚ) : ℚ :=
  let r := argsort (y_bak.take pr.n_parents ++ ySorted.take pr.n_parents)
  let rr := List.zipWith (fun a b => a - b)
    (maskSelect st._rr (r.map (fun ri => decide (ri < pr.n_parents))))
    (maskSelect st._rr (r.map (fun ri => decide (pr.n_parents ≤ ri))))
  dot pr._w rr / (pr.n_parents : ℚ)

/-- Embedding of `R1ES._update_distribution` (r1es.py lines 136-151): sort
`y` (the python code sorts in place, so the sorted `y` is also returned and
threaded onward), recombine the weighted mean over the best `n_parents`
offspring, smooth the principal direction, smooth the cumulative rank rate
against the baseline with the rank statistic, and rescale `sigma`
multiplicatively by `exp` of the new rank rate over `d_sigma`.  Returns
`((mean, p, s, ySorted), state)`. -/
def _update_distribution (pr : R1ESParams) (st : R1ESState) (x : List (List ℚ))
    (mean p : List ℚ) (s : ℚ) (y y_bak : List ℚ) :
    (List ℚ × List ℚ × ℚ × List ℚ) × R1ESState :=
  let order := argsort y
  let ySorted := order.map (fun i => y.getD i 0)
  let mean_w := (List.range pr.n_parents).foldl
    (fun acc k => vadd acc (smul (pr._w.getD k 0) (x.getD (order.getD k 0) [])))
    (zeros pr.ndim_problem)
  let p1 := vadd (smul pr._p_1 p) (smul (st._p_2 / st.sigma) (vsub mean_w mean))
  let s1 := (1 - pr.c_s) * s + pr.c_s * (rank_q pr st ySorted y_bak - pr.q_star)
  let sigma1 := st.sigma * pr.np_exp (s1 / st.d_sigma)
  ((mean_w, p1, s1, ySorted), { st with sigma := sigma1 })

end R1ES

/-- Modelled from the spec: `ES.restart_reinitialize` (the restart
controller) is not in the source sample; per the spec it records the current
best-so-far fitness, fires when the step-size has fallen below
`sigma_threshold` or the recorded best has not improved by more than
`fitness_diff` over the last `stagnation` generations, and on firing
increments the restart counter, restores the step-size from its backup and
clears the recorded history — never touching the evaluation or generation
counters. -/
def ES.restart_reinitialize (pr : R1ESParams) (st : R1ESState) : Bool × R1ESState :=
  let l := st._list_fitness ++ [st.core.best_so_far_y]
  let is_restart_1 := decide (st.sigma < pr.sigma_threshold)
  let is_restart_2 := decide (pr.stagnation ≤ l.length) &&
    decide (l.getD (l.length - pr.stagnation) 0 ≤ l.getD (l.length - 1) 0 + (pr.fitness_diff : WithTop ℚ))
  let b := is_restart_1 || is_restart_2
  if b then
    (b, { st with n_restart := st.n_restart + 1, sigma := pr._sigma_bak, _list_fitness := [] })
  else (b, { st with _list_fitness := l })

namespace R1ES

/-- Embedding of `R1ES.restart_reinitialize` (r1es.py lines 153-160): when
the spec-modelled controller fires, re-run `initialize` with
`is_restart = True`, append the fresh fitness value when recording, and
double `d_sigma`; otherwise pass everything through unchanged.  Returns
`((x, mean, p, s, y), state, fitness)`. -/
def restart_reinitialize (pr : R1ESParams) (st : R1ESState) (x : List (List ℚ))
    (mean p : List ℚ) (s : ℚ) (y : List ℚ) (fitness : List ℚ) :
    (List (List ℚ) × List ℚ × List ℚ × ℚ × List ℚ) × R1ESState × List ℚ :=
  let es := ES.restart_reinitialize pr st
  if es.1 then
    let ini := initialize0 pr es.2 true
    let fitness1 := if pr.saving_fitness then fitness ++ [ini.1.2.2.2.2.getD 0 0] else fitness
    (ini.1, { ini.2 with d_sigma := ini.2.d_sigma * 2 }, fitness1)
  else ((x, mean, p, s, y), es.2, fitness)

end R1ES

/-- The returned results record.  Modelled from the spec:
`Optimizer._collect_results` and the ES layer are not in the source sample;
per the spec the record carries the final counters, the best-so-far point and
value, the final step-size, the restart and generation counts and the
recorded fitness history; `R1ES.optimize` additionally stores the final mean,
the principal direction `p` and the cumulative rank rate `s`. -/
structure Results where
  best_so_far_x : List ℚ
  best_so_far_y : WithTop ℚ
  n_function_evaluations : Nat
  _n_generations : Nat
  sigma : ℚ
  n_restart : Nat
  fitness : List ℚ
  mean : List ℚ
  p : List ℚ
  s : ℚ

namespace R1ES

/-- Modelled from the spec: assembling the results record (see `Results`). -/
def _collect_results (pr : R1ESParams) (st : R1ESState) (fitness : List ℚ)
    (mean p : List ℚ) (s : ℚ) : Results :=
  { best_so_far_x := st.core.best_so_far_x
    best_so_far_y := st.core.best_so_far_y
    n_function_evaluations := st.core.n_function_evaluations
    _n_generations := st.core._n_generations
    sigma := st.sigma
    n_restart := st.n_restart
    fitness := if pr.saving_fitness then fitness else []
    mean := mean
    p := p
    s := s }

/-- The generation loop of `R1ES.optimize` (r1es.py lines 168-180), with
explicit fuel standing for the unbounded `while True` (the spec leaves an
unbounded-budget run unbounded, so the loop cannot be given a measure): back
up `y`, run `iterate`, record fitness, break when the termination check
fires, otherwise update the distribution, advance the generation counter and
consult the restart controller before the next generation. -/
def optimizeLoop (pr : R1ESParams) (st : R1ESState) (x : List (List ℚ))
    (mean p : List ℚ) (s : ℚ) (y : List ℚ) (fitness : List ℚ) (fuel : Nat) : Results :=
  match fuel with
  | 0 => _collect_results pr st fitness mean p s
  | fuel + 1 =>
    let y_bak := y
    let it := iterate pr st x mean p y
    let fitness1 := if pr.saving_fitness then fitness ++ it.1.2 else fitness
    if _check_terminations (cp pr) it.2.core then
      _collect_results pr it.2 fitness1 mean p s
    else
      let upd := _update_distribution pr it.2 it.1.1 mean p s it.1.2 y_bak
      let st2 := { upd.2 with
        core := { upd.2.core with _n_generations := upd.2.core._n_generations + 1 } }
      if pr.is_restart then
        let rr := restart_reinitialize pr st2 it.1.1 upd.1.1 upd.1.2.1 upd.1.2.2.1
          upd.1.2.2.2 fitness1
        optimizeLoop pr rr.2.1 rr.1.1 rr.1.2.1 rr.1.2.2.1 rr.1.2.2.2.1 rr.1.2.2.2.2
          rr.2.2 fuel
      else
        optimizeLoop pr st2 it.1.1 upd.1.1 upd.1.2.1 upd.1.2.2.1 upd.1.2.2.2 fitness1 fuel

/-- Embedding of `R1ES.optimize` (r1es.py lines 162-184): initialize (first
call, not a restart), record the initial fitness value, and run the
generation loop. -/
def optimize (pr : R1ESParams) (st : R1ESState) (fuel : Nat) : Results :=
  let ini := initialize0 pr st false
  let fitness := if pr.saving_fitness then ([] : List ℚ) ++ [ini.1.2.2.2.2.getD 0 0] else []
  optimizeLoop pr ini.2 ini.1.1 ini.1.2.1 ini.1.2.2.1 ini.1.2.2.2.1 ini.1.2.2.2.2 fitness fuel

end R1ES

/-- Parameters of the `FEP` optimizer (fep.py; the option resolution lives in
the `CEP` base which is not in the source sample — modelled from the spec:
offspring population size `n_individuals`, opponent count `q` and the two
learning rates). -/
structure FEPParams extends CoreParams where
  n_individuals : Nat
  q : Nat
  tau : ℚ
  tau_apostrophe : ℚ

namespace FEP

/-- The inner dimension loop of `FEP.iterate` (fep.py lines 99-104): for each
coordinate, one Cauchy draw perturbs the position and two normal draws rescale
the step-size through `exp`. -/
def mutateRow (p : FEPParams) (xi si : List ℚ) (g : Rng) : List ℚ × List ℚ × Rng :=
  (List.range p.ndim_problem).foldl
    (fun (acc : List ℚ × List ℚ × Rng) j =>
      let nj := acc.2.2.next
      let u1 := nj.2.next
      let u2 := u1.2.next
      (acc.1 ++ [xi.getD j 0 + si.getD j 0 * nj.1],
       acc.2.1 ++ [si.getD j 0 * p.np_exp (p.tau_apostrophe * u1.1 + p.tau * u2.1)],
       u2.2)) ([], [], g)

/-- The offspring loop of `FEP.iterate` (fep.py lines 96-105), by recursion
on the remaining offspring count: before each offspring the termination check
is polled; on termination the loop reports `false` together with the
offspring buffers as they stand. -/
def mutLoop (p : FEPParams) (c : CoreState) (x sigmas : List (List ℚ))
    (ox osig : List (List ℚ)) (oy : List ℚ) (i rem : Nat) :
    Bool × List (List ℚ) × List (List ℚ) × List ℚ × CoreState :=
  match rem with
  | 0 => (true, ox, osig, oy, c)
  | rem + 1 =>
    if _check_terminations p.toCoreParams c then (false, ox, osig, oy, c)
    else
      let mr := mutateRow p (x.getD i []) (sigmas.getD i []) c.rng_optimization
      let c1 := { c with rng_optimization := mr.2.2 }
      let ev := _evaluate_fitness p.toCoreParams c1 mr.1
      mutLoop p ev.2 x sigmas (ox.set i mr.1) (osig.set i mr.2.1) (oy.set i ev.1)
        (i + 1) rem

/-- The pairwise win-count tournament of `FEP.iterate` (fep.py lines
109-113): for each of the `2*n_individuals` stacked individuals, count how
many of `q` randomly chosen opponents it weakly beats (minimization). -/
def winCounts (new_y : List ℚ) (total q : Nat) (g : Rng) : List ℚ × Rng :=
  (List.range total).foldl
    (fun (acc : List ℚ × Rng) i =>
      let ch := acc.2.choice total q
      (acc.1 ++ [(((ch.1.filter (fun j => decide (new_y.getD i 0 ≤ new_y.getD j 0))).length : ℚ))],
       ch.2)) ([], g)

/-- Embedding of `FEP.iterate` (fep.py lines 94-119).  Runs the offspring
loop; if it was cut short by the termination check, the parent population
`x`, `sigmas`, `y` is returned exactly as passed in (fep.py line 98).
Otherwise the offspring are stacked on top of the parents, the win-count
tournament is held, and the `n_individuals` individuals with most wins
survive (decreasing win order).  Returns
`((x, sigmas, y, offspring_x, offspring_sigmas, offspring_y), core)`. -/
def iterate (p : FEPParams) (c : CoreState) (x sigmas : List (List ℚ)) (y : List ℚ)
    (ox osig : List (List ℚ)) (oy : List ℚ) :
    (List (List ℚ) × List (List ℚ) × List ℚ ×
      List (List ℚ) × List (List ℚ) × List ℚ) × CoreState :=
  let ml := mutLoop p c x sigmas ox osig oy 0 p.n_individuals
  let ox1 := ml.2.1
  let osig1 := ml.2.2.1
  let oy1 := ml.2.2.2.1
  let c1 := ml.2.2.2.2
  if ml.1 then
    let new_x := ox1 ++ x
    let new_sigmas := osig1 ++ sigmas
    let new_y := oy1 ++ y
    let wc := winCounts new_y (2 * p.n_individuals) p.q c1.rng_optimization
    let c2 := { c1 with rng_optimization := wc.2 }
    let order := (argsort wc.1).reverse
    let x1 := (List.range p.n_individuals).map (fun i => new_x.getD (order.getD i 0) [])
    let sigmas1 := (List.range p.n_individuals).map
      (fun i => new_sigmas.getD (order.getD i 0) [])
    let y1 := (List.range p.n_individuals).map (fun i => new_y.getD (order.getD i 0) 0)
    ((x1, sigmas1, y1, ox1, osig1, oy1), c2)
  else ((x, sigmas, y, ox1, osig1, oy1), c1)

end FEP

/-- The fields of the `DS` base class read by `DS._initialize_x` (ds.py lines
67-101): the optional user-supplied starting point `x`, the initialization
stream and the initial bounds. -/
structure DSSelf where
  x : Option (List ℚ)
  sigma : ℚ
  rng_initialization : Rng
  initial_lower_boundary : List ℚ
  initial_upper_boundary : List ℚ

/-- Embedding of `DS._initialize_x` (ds.py lines 96-101): on a restart, or
when no starting point was supplied, draw uniformly within the initial
bounds; otherwise copy the supplied point (the stream is untouched). -/
def DS._initialize_x (s : DSSelf) (is_restart : Bool) : List ℚ × Rng :=
  if is_restart || s.x.isNone then
    s.rng_initialization.uniform s.initial_lower_boundary s.initial_upper_boundary
  else (s.x.getD [], s.rng_initialization)

/-- A concrete constant random stream, used to evaluate the embedding on
closed inputs. -/
def exRng : Rng := ⟨fun _ => 0, 0⟩

/-- A concrete one-dimensional problem with a given evaluation budget. -/
def exCoreParams (mfe : Option Nat) : CoreParams :=
  { fitness_function := fun v => v.sum
    ndim_problem := 1
    lower_boundary := [-5]
    upper_boundary := [5]
    initial_lower_boundary := [-5]
    initial_upper_boundary := [5]
    max_function_evaluations := mfe
    saving_fitness := false
    np_sqrt := fun t => t
    np_exp := fun t => t }

/-- A concrete ES configuration over `exCoreParams`. -/
def exES (mfe : Option Nat) : ESBase :=
  { toCoreParams := exCoreParams mfe
    n_individuals := 2
    n_parents := 1
    mean := some [3]
    sigma := 1
    _sigma_bak := 1
    sigma_threshold := 1
    stagnation := 32
    fitness_diff := 0
    _w := [1]
    _mu_eff := 1
    is_restart := true }

/-- All `R1ES` options left at their defaults. -/
def exOptions : R1ESOptions := ⟨none, none, none, none, none⟩

/-- Concrete `R1ES` configuration with a zero evaluation budget. -/
def exParams0 : R1ESParams := R1ES.init (exES (some 0)) exOptions

/-- Concrete `R1ES` configuration with a budget of five evaluations. -/
def exParams5 : R1ESParams := R1ES.init (exES (some 5)) exOptions

/-- A fresh core state: no evaluations yet, best-so-far at infinity. -/
def exCoreState : CoreState :=
  { n_function_evaluations := 0
    best_so_far_y := ⊤
    best_so_far_x := []
    rng_initialization := exRng
    rng_optimization := exRng
    _n_generations := 0 }

/-- A fresh `R1ES` state over `exCoreState`. -/
def exState : R1ESState :=
  { core := exCoreState
    sigma := 1
    d_sigma := 1
    n_restart := 0
    _list_fitness := []
    _p_2 := 0
    _rr := [] }

/-- An `R1ES` state whose step-size has collapsed below the restart
threshold. -/
def exStateLow : R1ESState := { exState with sigma := 0 }

/-- A concrete `FEP` configuration with a zero evaluation budget. -/
def exFEP : FEPParams :=
  { toCoreParams := exCoreParams (some 0)
    n_individuals := 1
    q := 1
    tau := 1
    tau_apostrophe := 1 }

/-- A concrete `DS` state with a user-supplied starting point. -/
def exDS : DSSelf :=
  { x := some [2]
    sigma := 1
    rng_initialization := exRng
    initial_lower_boundary := [-5]
    initial_upper_boundary := [5] }

/-! Basic facts about the spec-modelled core gate. -/

theorem check_terminations_eq (p : CoreParams) (c : CoreState) (m : Nat)
    (hm : p.max_function_evaluations = some m) :
    _check_terminations p c = decide (m ≤ c.n_function_evaluations) := by
  unfold _check_terminations
  rw [hm]

theorem evaluate_fitness_nfe (p : CoreParams) (c : CoreState) (x : List ℚ) :
    (_evaluate_fitness p c x).2.n_function_evaluations = c.n_function_evaluations + 1 := by
  unfold _evaluate_fitness
  dsimp only
  split <;> rfl

theorem evaluate_fitness_gens (p : CoreParams) (c : CoreState) (x : List ℚ) :
    (_evaluate_fitness p c x).2._n_generations = c._n_generations := by
  unfold _evaluate_fitness
  dsimp only
  split <;> rfl

theorem evaluate_fitness_best_le (p : CoreParams) (c : CoreState) (x : List ℚ) :
    (_evaluate_fitness p c x).2.best_so_far_y ≤ c.best_so_far_y := by
  unfold _evaluate_fitness
  dsimp only
  split
  · exact le_of_lt (by assumption)
  · exact le_refl _

theorem iterateStep_nfe (pr : R1ESParams) (st : R1ESState) (mean p : List ℚ) :
    (R1ES.iterateStep pr st mean p).2.core.n_function_evaluations
      = st.core.n_function_evaluations + 1 := by
  unfold R1ES.iterateStep
  simp [evaluate_fitness_nfe]

theorem iterateStep_gens (pr : R1ESParams) (st : R1ESState) (mean p : List ℚ) :
    (R1ES.iterateStep pr st mean p).2.core._n_generations = st.core._n_generations := by
  unfold R1ES.iterateStep
  simp [evaluate_fitness_gens]

theorem iterateStep_best_le (pr : R1ESParams) (st : R1ESState) (mean p : List ℚ) :
    (R1ES.iterateStep pr st mean p).2.core.best_so_far_y ≤ st.core.best_so_far_y := by
  unfold R1ES.iterateStep
  simp only []
  exact evaluate_fitness_best_le _ _ _

/-! Counting and monotonicity along the offspring loop of `R1ES.iterate`. -/

theorem iterateLoop_nfe (pr : R1ESParams) (m : Nat)
    (hm : pr.max_function_evaluations = some m) (mean p : List ℚ) :
    ∀ rem st x y k,
      (R1ES.iterateLoop pr st x mean p y k rem).2.core.n_function_evaluations
        = st.core.n_function_evaluations
          + min rem (m - st.core.n_function_evaluations) := by
  have hm2 : (R1ES.cp pr).max_function_evaluations = some m := hm
  intro rem
  induction rem with
  | zero =>
    intro st x y k
    simp [R1ES.iterateLoop]
  | succ n ih =>
    intro st x y k
    simp only [R1ES.iterateLoop]
    rw [check_terminations_eq _ _ m hm2]
    by_cases h : m ≤ st.core.n_function_evaluations
    · simp only [h, decide_True, if_true]
      omega
    · simp only [h, decide_False, Bool.false_eq_true, if_false]
      rw [ih, iterateStep_nfe]
      omega

theorem iterateLoop_nfe_mono (pr : R1ESParams) (mean p : List ℚ) :
    ∀ rem st x y k,
      st.core.n_function_evaluations
        ≤ (R1ES.iterateLoop pr st x mean p y k rem).2.core.n_function_evaluations := by
  intro rem
  induction rem with
  | zero =>
    intro st x y k
    simp [R1ES.iterateLoop]
  | succ n ih =>
    intro st x y k
    simp only [R1ES.iterateLoop]
    by_cases h : _check_terminations (R1ES.cp pr) st.core
    · simp [h]
    · simp only [h, if_false, Bool.false_eq_true]
      calc st.core.n_function_evaluations
          ≤ (R1ES.iterateStep pr st mean p).2.core.n_function_evaluations := by
            rw [iterateStep_nfe]; omega
        _ ≤ _ := ih _ _ _ _

theorem iterateLoop_best_le (pr : R1ESParams) (mean p : List ℚ) :
    ∀ rem st x y k,
      (R1ES.iterateLoop pr st x mean p y k rem).2.core.best_so_far_y
        ≤ st.core.best_so_far_y := by
  intro rem
  induction rem with
  | zero =>
    intro st x y k
    simp [R1ES.iterateLoop]
  | succ n ih =>
    intro st x y k
    simp only [R1ES.iterateLoop]
    by_cases h : _check_terminations (R1ES.cp pr) st.core
    · simp [h]
    · simp only [h, if_false, Bool.false_eq_true]
      exact le_trans (ih _ _ _ _) (iterateStep_best_le pr st mean p)

theorem iterateLoop_gens (pr : R1ESParams) (mean p : List ℚ) :
    ∀ rem st x y k,
      (R1ES.iterateLoop pr st x mean p y k rem).2.core._n_generations
        = st.core._n_generations := by
  intro rem
  induction rem with
  | zero =>
    intro st x y k
    simp [R1ES.iterateLoop]
  | succ n ih =>
    intro st x y k
    simp only [R1ES.iterateLoop]
    by_cases h : _check_terminations (R1ES.cp pr) st.core
    · simp [h]
    · simp only [h, if_false, Bool.false_eq_true]
      rw [ih, iterateStep_gens]

theorem iterateLoop_terminated (pr : R1ESParams) (mean p : List ℚ)
    (st : R1ESState) (x : List (List ℚ)) (y : List ℚ) (k rem : Nat)
    (h : _check_terminations (R1ES.cp pr) st.core = true) :
    R1ES.iterateLoop pr st x mean p y k rem = ((x, y), st) := by
  cases rem <;> simp [R1ES.iterateLoop, h]

theorem iterate_nfe (pr : R1ESParams) (m : Nat)
    (hm : pr.max_function_evaluations = some m)
    (st : R1ESState) (x : List (List ℚ)) (mean p : List ℚ) (y : List ℚ) :
    (R1ES.iterate pr st x mean p y).2.core.n_function_evaluations
      = st.core.n_function_evaluations
        + min pr.n_individuals (m - st.core.n_function_evaluations) :=
  iterateLoop_nfe pr m hm mean p pr.n_individuals st x y 0

theorem iterate_nfe_mono (pr : R1ESParams) (st : R1ESState) (x : List (List ℚ))
    (mean p : List ℚ) (y : List ℚ) :
    st.core.n_function_evaluations
      ≤ (R1ES.iterate pr st x mean p y).2.core.n_function_evaluations :=
  iterateLoop_nfe_mono pr mean p pr.n_individuals st x y 0

theorem iterate_best_le (pr : R1ESParams) (st : R1ESState) (x : List (List ℚ))
    (mean p : List ℚ) (y : List ℚ) :
    (R1ES.iterate pr st x mean p y).2.core.best_so_far_y ≤ st.core.best_so_far_y :=
  iterateLoop_best_le pr mean p pr.n_individuals st x y 0

theorem iterate_gens (pr : R1ESParams) (st : R1ESState) (x : List (List ℚ))
    (mean p : List ℚ) (y : List ℚ) :
    (R1ES.iterate pr st x mean p y).2.core._n_generations = st.core._n_generations :=
  iterateLoop_gens pr mean p pr.n_individuals st x y 0

theorem iterate_terminated (pr : R1ESParams) (st : R1ESState) (x : List (List ℚ))
    (mean p : List ℚ) (y : List ℚ)
    (h : _check_terminations (R1ES.cp pr) st.core = true) :
    R1ES.iterate pr st x mean p y = ((x, y), st) :=
  iterateLoop_terminated pr mean p st x y 0 pr.n_individuals h

/-! Facts about initialization. -/

theorem initialize_mean_nfe (pr : R1ESParams) (c : CoreState) (ir : Bool) :
    (R1ES._initialize_mean pr c ir).2.n_function_evaluations = c.n_function_evaluations := by
  unfold R1ES._initialize_mean
  dsimp only
  split <;> rfl

theorem initialize_mean_gens (pr : R1ESParams) (c : CoreState) (ir : Bool) :
    (R1ES._initialize_mean pr c ir).2._n_generations = c._n_generations := by
  unfold R1ES._initialize_mean
  dsimp only
  split <;> rfl

theorem initialize_mean_best (pr : R1ESParams) (c : CoreState) (ir : Bool) :
    (R1ES._initialize_mean pr c ir).2.best_so_far_y = c.best_so_far_y := by
  unfold R1ES._initialize_mean
  dsimp only
  split <;> rfl

theorem initialize0_nfe (pr : R1ESParams) (st : R1ESState) (ir : Bool) :
    (R1ES.initialize0 pr st ir).2.core.n_function_evaluations
      = st.core.n_function_evaluations + 1 := by
  unfold R1ES.initialize0
  dsimp only
  rw [evaluate_fitness_nfe, initialize_mean_nfe]

theorem initialize0_gens (pr : R1ESParams) (st : R1ESState) (ir : Bool) :
    (R1ES.initialize0 pr st ir).2.core._n_generations = st.core._n_generations := by
  unfold R1ES.initialize0
  dsimp only
  rw [evaluate_fitness_gens, initialize_mean_gens]

theorem initialize0_best_le (pr : R1ESParams) (st : R1ESState) (ir : Bool) :
    (R1ES.initialize0 pr st ir).2.core.best_so_far_y ≤ st.core.best_so_far_y := by
  unfold R1ES.initialize0
  dsimp only
  exact le_trans (evaluate_fitness_best_le _ _ _)
    (le_of_eq (initialize_mean_best pr st.core ir))

theorem initialize0_sigma (pr : R1ESParams) (st : R1ESState) (ir : Bool) :
    (R1ES.initialize0 pr st ir).2.sigma = st.sigma := rfl

theorem initialize0_d_sigma (pr : R1ESParams) (st : R1ESState) (ir : Bool) :
    (R1ES.initialize0 pr st ir).2.d_sigma = st.d_sigma := rfl

theorem initialize0_n_restart (pr : R1ESParams) (st : R1ESState) (ir : Bool) :
    (R1ES.initialize0 pr st ir).2.n_restart = st.n_restart := rfl

/-! Facts about the distribution update and the restart layer. -/

theorem update_distribution_core (pr : R1ESParams) (st : R1ESState)
    (x : List (List ℚ)) (mean p : List ℚ) (s : ℚ) (y y_bak : List ℚ) :
    (R1ES._update_distribution pr st x mean p s y y_bak).2.core = st.core := rfl

theorem es_restart_core (pr : R1ESParams) (st : R1ESState) :
    (ES.restart_reinitialize pr st).2.core = st.core := by
  unfold ES.restart_reinitialize
  dsimp only
  split <;> rfl

theorem es_restart_trigger (pr : R1ESParams) (st : R1ESState)
    (h : (ES.restart_reinitialize pr st).1 = true) :
    (ES.restart_reinitialize pr st).2
      = { st with n_restart := st.n_restart + 1, sigma := pr._sigma_bak,
                  _list_fitness := [] } := by
  unfold ES.restart_reinitialize at h ⊢
  dsimp only at h ⊢
  split at h
  · rename_i hb
    rw [if_pos hb]
  · rename_i hb
    exact absurd h hb

theorem restart_nfe_le (pr : R1ESParams) (st : R1ESState) (x : List (List ℚ))
    (mean p : List ℚ) (s : ℚ) (y fitness : List ℚ) :
    (R1ES.restart_reinitialize pr st x mean p s y fitness).2.1.core.n_function_evaluations
      ≤ st.core.n_function_evaluations + 1 := by
  unfold R1ES.restart_reinitialize
  dsimp only
  split
  · rw [show ∀ a : R1ESState, ({ a with d_sigma := a.d_sigma * 2 } : R1ESState).core = a.core
        from fun a => rfl]
    rw [initialize0_nfe, es_restart_core]
  · rw [es_restart_core]
    omega

theorem restart_gens (pr : R1ESParams) (st : R1ESState) (x : List (List ℚ))
    (mean p : List ℚ) (s : ℚ) (y fitness : List ℚ) :
    (R1ES.restart_reinitialize pr st x mean p s y fitness).2.1.core._n_generations
      = st.core._n_generations := by
  unfold R1ES.restart_reinitialize
  dsimp only
  split
  · rw [show ∀ a : R1ESState, ({ a with d_sigma := a.d_sigma * 2 } : R1ESState).core = a.core
        from fun a => rfl]
    rw [initialize0_gens, es_restart_core]
  · rw [es_restart_core]

theorem restart_best_le (pr : R1ESParams) (st : R1ESState) (x : List (List ℚ))
    (mean p : List ℚ) (s : ℚ) (y fitness : List ℚ) :
    (R1ES.restart_reinitialize pr st x mean p s y fitness).2.1.core.best_so_far_y
      ≤ st.core.best_so_far_y := by
  unfold R1ES.restart_reinitialize
  dsimp only
  split
  · rw [show ∀ a : R1ESState, ({ a with d_sigma := a.d_sigma * 2 } : R1ESState).core = a.core
        from fun a => rfl]
    exact le_trans (initialize0_best_le _ _ _) (le_of_eq (by rw [es_restart_core]))
  · rw [es_restart_core]

/-! Facts about the generation loop of `R1ES.optimize`. -/

theorem collect_nfe (pr : R1ESParams) (st : R1ESState) (fitness mean p : List ℚ) (s : ℚ) :
    (R1ES._collect_results pr st fitness mean p s).n_function_evaluations
      = st.core.n_function_evaluations := rfl

theorem collect_best (pr : R1ESParams) (st : R1ESState) (fitness mean p : List ℚ) (s : ℚ) :
    (R1ES._collect_results pr st fitness mean p s).best_so_far_y
      = st.core.best_so_far_y := rfl

theorem optimizeLoop_nfe_le (pr : R1ESParams) (m : Nat)
    (hm : pr.max_function_evaluations = some m) :
    ∀ fuel st x mean p s y fitness,
      st.core.n_function_evaluations ≤ m →
      (R1ES.optimizeLoop pr st x mean p s y fitness fuel).n_function_evaluations ≤ m := by
  have hm2 : (R1ES.cp pr).max_function_evaluations = some m := hm
  intro fuel
  induction fuel with
  | zero =>
    intro st x mean p s y f hle
    simpa [R1ES.optimizeLoop, collect_nfe] using hle
  | succ n ih =>
    intro st x mean p s y f hle
    simp only [R1ES.optimizeLoop]
    by_cases hc : _check_terminations (R1ES.cp pr) (R1ES.iterate pr st x mean p y).2.core
    · simp only [hc, if_true, collect_nfe]
      rw [iterate_nfe pr m hm]
      omega
    · have hlt : (R1ES.iterate pr st x mean p y).2.core.n_function_evaluations < m := by
        rw [check_terminations_eq _ _ m hm2] at hc
        simpa using hc
      simp only [hc, if_false, Bool.false_eq_true]
      by_cases hr : pr.is_restart
      · simp only [hr, if_true]
        refine ih _ _ _ _ _ _ _ ?_
        refine le_trans (restart_nfe_le _ _ _ _ _ _ _ _) ?_
        dsimp only
        simp only [update_distribution_core]
        omega
      · simp only [hr, if_false, Bool.false_eq_true]
        refine ih _ _ _ _ _ _ _ ?_
        dsimp only
        simp only [update_distribution_core]
        omega

theorem optimizeLoop_best_le (pr : R1ESParams) :
    ∀ fuel st x mean p s y fitness,
      (R1ES.optimizeLoop pr st x mean p s y fitness fuel).best_so_far_y
        ≤ st.core.best_so_far_y := by
  intro fuel
  induction fuel with
  | zero =>
    intro st x mean p s y f
    simp [R1ES.optimizeLoop, collect_best]
  | succ n ih =>
    intro st x mean p s y f
    simp only [R1ES.optimizeLoop]
    by_cases hc : _check_terminations (R1ES.cp pr) (R1ES.iterate pr st x mean p y).2.core
    · simp only [hc, if_true, collect_best]
      exact iterate_best_le pr st x mean p y
    · simp only [hc, if_false, Bool.false_eq_true]
      by_cases hr : pr.is_restart
      · simp only [hr, if_true]
        refine le_trans (ih _ _ _ _ _ _ _) ?_
        refine le_trans (restart_best_le _ _ _ _ _ _ _ _) ?_
        dsimp only
        simp only [update_distribution_core]
        exact iterate_best_le pr st x mean p y
      · simp only [hr, if_false, Bool.false_eq_true]
        refine le_trans (ih _ _ _ _ _ _ _) ?_
        dsimp only
        simp only [update_distribution_core]
        exact iterate_best_le pr st x mean p y

theorem optimize_nfe_le (pr : R1ESParams) (m : Nat)
    (hm : pr.max_function_evaluations = some m) (st : R1ESState) (fuel : Nat)
    (h0 : st.core.n_function_evaluations < m) :
    (R1ES.optimize pr st fuel).n_function_evaluations ≤ m := by
  unfold R1ES.optimize
  dsimp only
  refine optimizeLoop_nfe_le pr m hm _ _ _ _ _ _ _ _ ?_
  rw [initialize0_nfe]
  omega

theorem optimize_best_le (pr : R1ESParams) (st : R1ESState) (fuel : Nat) :
    (R1ES.optimize pr st fuel).best_so_far_y ≤ st.core.best_so_far_y := by
  unfold R1ES.optimize
  dsimp only
  exact le_trans (optimizeLoop_best_le pr _ _ _ _ _ _ _ _) (initialize0_best_le pr st false)

/-! Counting along the offspring loop of `FEP.iterate`. -/

theorem mutLoop_nfe (p : FEPParams) (m : Nat)
    (hm : p.max_function_evaluations = some m) (x sigmas : List (List ℚ)) :
    ∀ rem c ox osig oy i,
      (FEP.mutLoop p c x sigmas ox osig oy i rem).2.2.2.2.n_function_evaluations
        = c.n_function_evaluations + min rem (m - c.n_function_evaluations) := by
  have hm2 : p.toCoreParams.max_function_evaluations = some m := hm
  intro rem
  induction rem with
  | zero =>
    intro c ox osig oy i
    simp [FEP.mutLoop]
  | succ n ih =>
    intro c ox osig oy i
    simp only [FEP.mutLoop]
    rw [check_terminations_eq _ _ m hm2]
    by_cases h : m ≤ c.n_function_evaluations
    · simp only [h, decide_True, if_true]
      omega
    · simp only [h, decide_False, Bool.false_eq_true, if_false]
      rw [ih, evaluate_fitness_nfe]
      dsimp only
      omega

theorem mutLoop_complete_bound (p : FEPParams) (m : Nat)
    (hm : p.max_function_evaluations = some m) (x sigmas : List (List ℚ)) :
    ∀ rem c ox osig oy i, 0 < rem →
      (FEP.mutLoop p c x sigmas ox osig oy i rem).1 = true →
      c.n_function_evaluations + rem ≤ m := by
  have hm2 : p.toCoreParams.max_function_evaluations = some m := hm
  intro rem
  induction rem with
  | zero =>
    intro c ox osig oy i hpos
    omega
  | succ n ih =>
    intro c ox osig oy i _ hcomp
    simp only [FEP.mutLoop] at hcomp
    rw [check_terminations_eq _ _ m hm2] at hcomp
    by_cases h : m ≤ c.n_function_evaluations
    · simp only [h, decide_True, if_true] at hcomp
      exact absurd hcomp (by simp)
    · simp only [h, decide_False, Bool.false_eq_true, if_false] at hcomp
      cases n with
      | zero => omega
      | succ k =>
        have hb := ih _ _ _ _ _ (Nat.succ_pos k) hcomp
        rw [evaluate_fitness_nfe] at hb
        dsimp only at hb
        omega

theorem fep_iterate_nfe (p : FEPParams) (c : CoreState) (x sigmas : List (List ℚ))
    (y : List ℚ) (ox osig : List (List ℚ)) (oy : List ℚ) (m : Nat)
    (hm : p.max_function_evaluations = some m) :
    (FEP.iterate p c x sigmas y ox osig oy).2.n_function_evaluations
      = c.n_function_evaluations + min p.n_individuals (m - c.n_function_evaluations) := by
  unfold FEP.iterate
  dsimp only
  by_cases hb : (FEP.mutLoop p c x sigmas ox osig oy 0 p.n_individuals).1
  · simp only [hb, if_true]
    exact mutLoop_nfe p m hm x sigmas p.n_individuals c ox osig oy 0
  · simp only [hb, Bool.false_eq_true, if_false]
    exact mutLoop_nfe p m hm x sigmas p.n_individuals c ox osig oy 0

/-!
The claims.
-/

/-- C1 counterexample: the claim fails as stated at the configuration
`max_function_evaluations = 0`.  The single unguarded evaluation of the mean
inside `R1ES.initialize` (r1es.py line 122) runs before any termination check,
so the returned `n_function_evaluations` is `1 > 0`, exceeding the finite
budget. -/
theorem C1_counterexample :
    exParams0.max_function_evaluations = some 0 ∧
    0 < (R1ES.optimize exParams0 exState 1).n_function_evaluations := by
  constructor
  · rfl
  · decide

/-- C1 (amended): the evaluation counter is monotonically non-decreasing
across `R1ES.iterate`; once `_check_terminations` is true, `iterate` performs
no further evaluation and returns its inputs unchanged; and whenever
`max_function_evaluations = m` is finite and the run starts with its counter
strictly below `m` (in particular any fresh run with `m ≥ 1`; the
initialization evaluation of the mean is unguarded, which is what the
counterexample exploits at `m = 0`), the `n_function_evaluations` returned by
`R1ES.optimize` never exceeds `m`. -/
theorem C1_theorem :
    (∀ (pr : R1ESParams) (st : R1ESState) (x : List (List ℚ)) (mean p : List ℚ)
        (y : List ℚ),
        st.core.n_function_evaluations
          ≤ (R1ES.iterate pr st x mean p y).2.core.n_function_evaluations) ∧
    (∀ (pr : R1ESParams) (st : R1ESState) (x : List (List ℚ)) (mean p : List ℚ)
        (y : List ℚ),
        _check_terminations (R1ES.cp pr) st.core = true →
        R1ES.iterate pr st x mean p y = ((x, y), st)) ∧
    (∀ (pr : R1ESParams) (st : R1ESState) (fuel m : Nat),
        pr.max_function_evaluations = some m →
        st.core.n_function_evaluations < m →
        (R1ES.optimize pr st fuel).n_function_evaluations ≤ m) :=
  ⟨iterate_nfe_mono, iterate_terminated,
    fun pr st fuel m hm h0 => optimize_nfe_le pr m hm st fuel h0⟩

/-- Witness for C1: with a budget of five evaluations and a fresh counter the
run returns at most five evaluations. -/
theorem C1_witness :
    (R1ES.optimize exParams5 exState 2).n_function_evaluations ≤ 5 :=
  C1_theorem.2.2 exParams5 exState 2 5 rfl (by decide)

/-- C2: the best-so-far fitness value is monotonically non-increasing across
every stage of a run of `optimize` (minimization): across `iterate`, across
`initialize` (first call or restart), across the restart hook, across any
number of generations of the optimize loop, and across the whole of
`optimize`, restarts included. -/
theorem C2_theorem :
    (∀ (pr : R1ESParams) (st : R1ESState) (x : List (List ℚ)) (mean p : List ℚ)
        (y : List ℚ),
        (R1ES.iterate pr st x mean p y).2.core.best_so_far_y
          ≤ st.core.best_so_far_y) ∧
    (∀ (pr : R1ESParams) (st : R1ESState) (ir : Bool),
        (R1ES.initialize0 pr st ir).2.core.best_so_far_y ≤ st.core.best_so_far_y) ∧
    (∀ (pr : R1ESParams) (st : R1ESState) (x : List (List ℚ)) (mean p : List ℚ)
        (s : ℚ) (y fitness : List ℚ),
        (R1ES.restart_reinitialize pr st x mean p s y fitness).2.1.core.best_so_far_y
          ≤ st.core.best_so_far_y) ∧
    (∀ (pr : R1ESParams) (fuel : Nat) (st : R1ESState) (x : List (List ℚ))
        (mean p : List ℚ) (s : ℚ) (y fitness : List ℚ),
        (R1ES.optimizeLoop pr st x mean p s y fitness fuel).best_so_far_y
          ≤ st.core.best_so_far_y) ∧
    (∀ (pr : R1ESParams) (st : R1ESState) (fuel : Nat),
        (R1ES.optimize pr st fuel).best_so_far_y ≤ st.core.best_so_far_y) :=
  ⟨iterate_best_le, initialize0_best_le, restart_best_le,
    fun pr fuel st x mean p s y fitness => optimizeLoop_best_le pr fuel st x mean p s y fitness,
    optimize_best_le⟩

/-- C3: with a finite budget `m`, one generation of `iterate` performs exactly
`min(n_individuals, m - n_before)` evaluations — that is, when the budget is
exhausted after `k < n_individuals` offspring, the loop stops and the counter
grows by exactly `k` — both for the rank-one exemplar `R1ES.iterate` and for
`FEP.iterate`. -/
theorem C3_theorem :
    (∀ (pr : R1ESParams) (st : R1ESState) (x : List (List ℚ)) (mean p : List ℚ)
        (y : List ℚ) (m : Nat),
        pr.max_function_evaluations = some m →
        (R1ES.iterate pr st x mean p y).2.core.n_function_evaluations
          = st.core.n_function_evaluations
            + min pr.n_individuals (m - st.core.n_function_evaluations)) ∧
    (∀ (p : FEPParams) (c : CoreState) (x sigmas : List (List ℚ)) (y : List ℚ)
        (ox osig : List (List ℚ)) (oy : List ℚ) (m : Nat),
        p.max_function_evaluations = some m →
        (FEP.iterate p c x sigmas y ox osig oy).2.n_function_evaluations
          = c.n_function_evaluations
            + min p.n_individuals (m - c.n_function_evaluations)) :=
  ⟨fun pr st x mean p y m hm => iterate_nfe pr m hm st x mean p y,
    fun p c x sigmas y ox osig oy m hm => fep_iterate_nfe p c x sigmas y ox osig oy m hm⟩

/-- Witness for C3: a concrete generation with budget five and two offspring
performs exactly `min 2 5 = 2` evaluations. -/
theorem C3_witness :
    (R1ES.iterate exParams5 exState [[0], [0]] [3] [0] [0, 0]).2.core.n_function_evaluations
      = exState.core.n_function_evaluations
        + min 2 (5 - exState.core.n_function_evaluations) :=
  C3_theorem.1 exParams5 exState [[0], [0]] [3] [0] [0, 0] 5 rfl

/-- C4: the embedded run is a pure function of the configuration and of the
seeded random streams carried in the initial state: two executions of
`optimize` from equal configurations and equal initial states (same seeds)
produce identical results records, bit for bit.  The wall-clock runtime
budget is outside the embedding; under the evaluation budget the process
contains no other source of nondeterminism. -/
theorem C4_theorem (pr1 pr2 : R1ESParams) (st1 st2 : R1ESState) (fuel : Nat)
    (hp : pr1 = pr2) (hs : st1 = st2) :
    R1ES.optimize pr1 st1 fuel = R1ES.optimize pr2 st2 fuel := by
  rw [hp, hs]

/-- Witness for C4 at a concrete configuration and seed. -/
theorem C4_witness :
    R1ES.optimize exParams5 exState 1 = R1ES.optimize exParams5 exState 1 :=
  C4_theorem exParams5 exParams5 exState exState 1 rfl rfl

/-- C5: when the restart controller fires, the restart increments `n_restart`
by one, leaves `_n_generations` untouched, leaves `n_function_evaluations`
cumulative (it grows by the single re-initialization evaluation, and is never
reset), doubles `d_sigma`, restores `sigma` from its backup, and resets the
algorithm-internal distribution state (principal direction back to the zero
vector, cumulative rank rate back to zero). -/
theorem C5_theorem (pr : R1ESParams) (st : R1ESState) (x : List (List ℚ))
    (mean p : List ℚ) (s : ℚ) (y fitness : List ℚ)
    (h : (ES.restart_reinitialize pr st).1 = true) :
    (R1ES.restart_reinitialize pr st x mean p s y fitness).2.1.n_restart
      = st.n_restart + 1 ∧
    (R1ES.restart_reinitialize pr st x mean p s y fitness).2.1.core._n_generations
      = st.core._n_generations ∧
    (R1ES.restart_reinitialize pr st x mean p s y fitness).2.1.core.n_function_evaluations
      = st.core.n_function_evaluations + 1 ∧
    (R1ES.restart_reinitialize pr st x mean p s y fitness).2.1.d_sigma
      = st.d_sigma * 2 ∧
    (R1ES.restart_reinitialize pr st x mean p s y fitness).2.1.sigma
      = pr._sigma_bak ∧
    (R1ES.restart_reinitialize pr st x mean p s y fitness).1.2.2.1
      = zeros pr.ndim_problem ∧
    (R1ES.restart_reinitialize pr st x mean p s y fitness).1.2.2.2.1 = (0 : ℚ) := by
  unfold R1ES.restart_reinitialize
  dsimp only
  simp only [h, if_true]
  rw [es_restart_trigger pr st h]
  refine ⟨?_, ?_, ?_, ?_, ?_, rfl, rfl⟩ <;>
    simp [initialize0_n_restart, initialize0_gens, initialize0_nfe, initialize0_d_sigma,
      initialize0_sigma]

/-- Witness for C5: a concrete restart fired by step-size collapse. -/
theorem C5_witness :
    (R1ES.restart_reinitialize exParams5 exStateLow [] [] [] 0 [] []).2.1.n_restart
      = exStateLow.n_restart + 1 ∧
    (R1ES.restart_reinitialize exParams5 exStateLow [] [] [] 0 [] []).2.1.core._n_generations
      = exStateLow.core._n_generations ∧
    (R1ES.restart_reinitialize exParams5 exStateLow [] [] [] 0 [] []).2.1.core.n_function_evaluations
      = exStateLow.core.n_function_evaluations + 1 ∧
    (R1ES.restart_reinitialize exParams5 exStateLow [] [] [] 0 [] []).2.1.d_sigma
      = exStateLow.d_sigma * 2 ∧
    (R1ES.restart_reinitialize exParams5 exStateLow [] [] [] 0 [] []).2.1.sigma
      = exParams5._sigma_bak ∧
    (R1ES.restart_reinitialize exParams5 exStateLow [] [] [] 0 [] []).1.2.2.1
      = zeros exParams5.ndim_problem ∧
    (R1ES.restart_reinitialize exParams5 exStateLow [] [] [] 0 [] []).1.2.2.2.1 = (0 : ℚ) :=
  C5_theorem exParams5 exStateLow [] [] [] 0 [] [] (by decide)

/-- C6: `DS._initialize_x` with `is_restart = True` always draws uniformly
within the initial bounds, ignoring any user-supplied starting point (two
states differing only in the stored `x` produce the same draw); the supplied
starting point is used only on a first, non-restart initialization, and when
none was supplied the first initialization also draws uniformly. -/
theorem C6_theorem :
    (∀ (s : DSSelf) (v : Option (List ℚ)),
        DS._initialize_x { s with x := v } true = DS._initialize_x s true) ∧
    (∀ (s : DSSelf),
        DS._initialize_x s true
          = s.rng_initialization.uniform s.initial_lower_boundary
              s.initial_upper_boundary) ∧
    (∀ (s : DSSelf) (x0 : List ℚ), s.x = some x0 →
        DS._initialize_x s false = (x0, s.rng_initialization)) ∧
    (∀ (s : DSSelf), s.x = none →
        DS._initialize_x s false
          = s.rng_initialization.uniform s.initial_lower_boundary
              s.initial_upper_boundary) := by
  refine ⟨fun s v => rfl, fun s => rfl, fun s x0 hx => ?_, fun s hx => ?_⟩
  · simp [DS._initialize_x, hx]
  · simp [DS._initialize_x, hx]

/-- Witness for C6: the user-supplied point is returned verbatim on the first
initialization. -/
theorem C6_witness :
    DS._initialize_x exDS false = ([2], exDS.rng_initialization) :=
  C6_theorem.2.2.1 exDS [2] rfl

/-- C7: for a configuration built by `R1ES.__init__`, the precomputed
coefficients are `_x_1 = sqrt(1 - c_cov)` and `_x_2 = sqrt(c_cov)`, and each
offspring of `iterate` is formed as
`mean + sigma*(sqrt(1-c_cov)*z + sqrt(c_cov)*r*p)` where `z` is the fresh
`ndim`-vector drawn from the optimization stream and `r` the scalar drawn
right after it; the candidate is evaluated through the single core gate,
whose counter grows by exactly one and whose returned value is the fitness
function at the candidate. -/
theorem C7_theorem (es : ESBase) (o : R1ESOptions) (st : R1ESState)
    (mean p : List ℚ) :
    (R1ES.init es o)._x_1 = es.np_sqrt (1 - (R1ES.init es o).c_cov) ∧
    (R1ES.init es o)._x_2 = es.np_sqrt ((R1ES.init es o).c_cov) ∧
    (R1ES.iterateStep (R1ES.init es o) st mean p).1.1
      = vadd mean (smul st.sigma
          (vadd (smul (es.np_sqrt (1 - (R1ES.init es o).c_cov))
                  (st.core.rng_optimization.nextVec es.ndim_problem).1)
                (smul (es.np_sqrt ((R1ES.init es o).c_cov)
                        * ((st.core.rng_optimization.nextVec es.ndim_problem).2.next).1)
                  p))) ∧
    (R1ES.iterateStep (R1ES.init es o) st mean p).1.2
      = es.fitness_function ((R1ES.iterateStep (R1ES.init es o) st mean p).1.1) ∧
    (R1ES.iterateStep (R1ES.init es o) st mean p).2.core.n_function_evaluations
      = st.core.n_function_evaluations + 1 :=
  ⟨rfl, rfl, rfl, rfl, iterateStep_nfe (R1ES.init es o) st mean p⟩

/-- C8: `_update_distribution` updates the cumulative rank rate as
`s1 = (1-c_s)*s + c_s*(q - q_star)` where `q` is the weighted rank-difference
statistic `rank_q` computed from the combined ranks of the previous and
current parent fitness values, and then rescales the step-size
multiplicatively by `exp` of the new rank rate over `d_sigma`:
`sigma1 = sigma * exp(s1/d_sigma)`. -/
theorem C8_theorem (pr : R1ESParams) (st : R1ESState) (x : List (List ℚ))
    (mean p : List ℚ) (s : ℚ) (y y_bak : List ℚ) :
    (R1ES._update_distribution pr st x mean p s y y_bak).1.2.2.1
      = (1 - pr.c_s) * s
        + pr.c_s
          * (R1ES.rank_q pr st ((argsort y).map (fun i => y.getD i 0)) y_bak
              - pr.q_star) ∧
    (R1ES._update_distribution pr st x mean p s y y_bak).2.sigma
      = st.sigma * pr.np_exp
          ((R1ES._update_distribution pr st x mean p s y y_bak).1.2.2.1
            / st.d_sigma) :=
  ⟨rfl, rfl⟩

/-- C9: every call to `R1ES.initialize` — first call or restart — performs
exactly one fitness evaluation, namely of the mean it returns, and the
returned fitness vector is `n_individuals` identical copies of that single
value; no offspring are evaluated during initialization. -/
theorem C9_theorem (pr : R1ESParams) (st : R1ESState) (ir : Bool) :
    (R1ES.initialize0 pr st ir).2.core.n_function_evaluations
      = st.core.n_function_evaluations + 1 ∧
    (R1ES.initialize0 pr st ir).1.2.2.2.2
      = List.replicate pr.n_individuals
          (pr.fitness_function ((R1ES.initialize0 pr st ir).1.2.1)) :=
  ⟨initialize0_nfe pr st ir, rfl⟩

/-- C10: if the termination check fires at some offspring index during
`FEP.iterate` — which with finite budget `m` happens exactly when
`m < n_before + n_individuals` for a nonempty offspring population — the
function returns with the parent population `x`, `sigmas` and `y` exactly as
passed in: the stacking of offspring onto parents, the win-count tournament
and the survivor selection are all skipped, so partially evaluated offspring
are never merged. -/
theorem C10_theorem (p : FEPParams) (c : CoreState) (x sigmas : List (List ℚ))
    (y : List ℚ) (ox osig : List (List ℚ)) (oy : List ℚ) (m : Nat)
    (hm : p.max_function_evaluations = some m)
    (hlt : m < c.n_function_evaluations + p.n_individuals)
    (hn : 0 < p.n_individuals) :
    (FEP.iterate p c x sigmas y ox osig oy).1.1 = x ∧
    (FEP.iterate p c x sigmas y ox osig oy).1.2.1 = sigmas ∧
    (FEP.iterate p c x sigmas y ox osig oy).1.2.2.1 = y := by
  have hml : (FEP.mutLoop p c x sigmas ox osig oy 0 p.n_individuals).1 = false := by
    cases hb : (FEP.mutLoop p c x sigmas ox osig oy 0 p.n_individuals).1 with
    | false => rfl
    | true =>
      have := mutLoop_complete_bound p m hm x sigmas p.n_individuals c ox osig oy 0 hn hb
      omega
  unfold FEP.iterate
  dsimp only
  simp only [hml, Bool.false_eq_true, if_false]
  exact ⟨trivial, trivial, trivial⟩

/-- Witness for C10: with a zero budget the check fires at offspring index
zero and the parent population passes through unchanged. -/
theorem C10_witness :
    (FEP.iterate exFEP exCoreState [[0]] [[1]] [0] [[0]] [[1]] [0]).1.1 = [[0]] ∧
    (FEP.iterate exFEP exCoreState [[0]] [[1]] [0] [[0]] [[1]] [0]).1.2.1 = [[1]] ∧
    (FEP.iterate exFEP exCoreState [[0]] [[1]] [0] [[0]] [[1]] [0]).1.2.2.1 = [0] :=
  C10_theorem exFEP exCoreState [[0]] [[1]] [0] [[0]] [[1]] [0] 0 rfl (by decide)
    (by decide)

end Pypop
